import Mathlib

/-
  Shallow embedding of the TrinityCore modular (plugin) system:
  src/server/game/Plugins/PluginManager.cpp, PluginManager.h, IPlugin.h,
  with the lifecycle methods of the repository's canonical plugin
  implementation (Examples/ExamplePlugin).

  Modeling conventions:
  * `std::unordered_map` becomes an association list held in the map's
    iteration order.  Iteration order of `unordered_map` is unspecified and in
    particular unrelated to insertion (registration) order; the embedding keeps
    the list canonically sorted by key, which is one admissible iteration
    order and, like the C++ map, is independent of insertion history.
    General theorems quantify over arbitrary association lists.
  * `PluginManager::ResolveDependencies` is recursive with no cycle check; the
    embedding adds an explicit fuel argument measuring recursion depth.
    A `none` result means the C++ recursion has not returned within that
    depth; `(∀ fuel, _ = none)` means the C++ call never returns (unbounded
    recursion / stack overflow).
  * Lifecycle virtuals (`Load`, `Initialize`, `Start`, `Stop`, `Unload`,
    `CheckDependencies`, `GetEventHandler`) are plugin-implemented; they are
    modeled after ExamplePlugin (the repository's implementation), with
    boolean fields for the results of the fallible ones.
  * The word `initialize` cannot be used as an identifier here, so
    `InitializePlugin` is embedded as `initPlugin` and the plugin virtual
    `Initialize()` as `Plugin.doInit`.
-/

namespace PluginSys

/-- LifecycleState: enum class PluginState (IPlugin.h). -/
inductive PluginState
  | UNLOADED
  | LOADING
  | LOADED
  | INITIALIZING
  | INITIALIZED
  | RUNNING
  | STOPPING
  | ERROR
deriving DecidableEq, Repr

/-- enum class PluginPriority (IPlugin.h). -/
inductive PluginPriority
  | LOWEST
  | LOW
  | NORMAL
  | HIGH
  | HIGHEST
  | CRITICAL
deriving DecidableEq, Repr

/-- Numeric value of the priority enum (LOWEST = 0 .. CRITICAL = 5);
the C++ comparator compares the enum values numerically. -/
def PluginPriority.toNat : PluginPriority → Nat
  | .LOWEST => 0
  | .LOW => 1
  | .NORMAL => 2
  | .HIGH => 3
  | .HIGHEST => 4
  | .CRITICAL => 5

/-- struct PluginInfo (IPlugin.h): the Descriptor. -/
structure PluginInfo where
  name : String
  version : String
  author : String := ""
  dependencies : List String := []
  priority : PluginPriority := .NORMAL
deriving DecidableEq, Repr

/-- One IPlugin instance.  Besides its Descriptor and current state it carries
the plugin-implemented behavior of the lifecycle virtuals: whether
`GetEventHandler()` returns a non-null handler, the boolean results of
`Load()`, `Initialize()` and `CheckDependencies()`, and whether the handler's
`OnPlayerLogin` raises (for dispatch-failure claims). -/
structure Plugin where
  info : PluginInfo
  state : PluginState := .UNLOADED
  hasEventHandler : Bool := false
  loadOk : Bool := true
  initOk : Bool := true
  depsOk : Bool := true
  loginThrows : Bool := false
deriving DecidableEq, Repr

/-- `Load()` as implemented by ExamplePlugin: sets LOADING, then LOADED on
success, and returns true; a failing implementation returns between the two
assignments (state left at LOADING). -/
def Plugin.doLoad (p : Plugin) : Bool × Plugin :=
  (p.loadOk, if p.loadOk then { p with state := .LOADED } else { p with state := .LOADING })

/-- `Initialize()` as implemented by ExamplePlugin: sets INITIALIZING, then
INITIALIZED on success, returning true; a failing implementation returns
between the two assignments. -/
def Plugin.doInit (p : Plugin) : Bool × Plugin :=
  (p.initOk, if p.initOk then { p with state := .INITIALIZED } else { p with state := .INITIALIZING })

/-- `Start()` as implemented by ExamplePlugin: sets RUNNING. -/
def Plugin.doStart (p : Plugin) : Plugin :=
  { p with state := .RUNNING }

/-- `Stop()` as implemented by ExamplePlugin: sets STOPPING, does its work,
then sets LOADED. -/
def Plugin.doStop (p : Plugin) : Plugin :=
  { p with state := .LOADED }

/-- `Unload()` as implemented by ExamplePlugin: sets UNLOADED. -/
def Plugin.doUnload (p : Plugin) : Plugin :=
  { p with state := .UNLOADED }

/-- struct LoadedPlugin (PluginManager.h): the table entry owning the plugin
instance and the native-module handle.  `handleValid` models
`handle != nullptr`. -/
structure LoadedPlugin where
  plugin : Plugin
  handleValid : Bool := true
deriving DecidableEq, Repr

/-- Lexicographic comparison of character lists, by code point. -/
def charListLt : List Char → List Char → Bool
  | [], [] => false
  | [], _ :: _ => true
  | _ :: _, [] => false
  | c :: cs, d :: ds =>
    if c.toNat < d.toNat then true
    else if d.toNat < c.toNat then false
    else charListLt cs ds

/-- A strict total order on strings used to place entries at their canonical
position in the modeled map (any fixed order independent of insertion history
represents the unordered map's iteration order). -/
def strLtB (a b : String) : Bool := charListLt a.data b.data

/-- Association-list find, modeling `unordered_map::find`. -/
def mapFind {β : Type} (k : String) : List (String × β) → Option β
  | [] => none
  | (k', v) :: rest => if k = k' then some v else mapFind k rest

/-- Association-list update/insert, modeling `map[k] = v`.  An existing key is
overwritten in place; a new key is inserted at its canonical (key-ordered)
position, reflecting that the map's iteration order is independent of
insertion order. -/
def mapInsert {β : Type} (k : String) (v : β) : List (String × β) → List (String × β)
  | [] => [(k, v)]
  | (k', v') :: rest =>
    if k = k' then (k, v) :: rest
    else if strLtB k k' then (k, v) :: (k', v') :: rest
    else (k', v') :: mapInsert k v rest

/-- Association-list erase, modeling `unordered_map::erase(key)`. -/
def mapErase {β : Type} (k : String) : List (String × β) → List (String × β)
  | [] => []
  | (k', v) :: rest => if k = k' then rest else (k', v) :: mapErase k rest

/-- Insert a key into the handler-name table (`_eventHandlers[name] = handler`);
the handler object is the named plugin's, so the binding is identified by the
owner name. -/
def nameInsert (k : String) : List String → List String
  | [] => [k]
  | k' :: rest =>
    if k = k' then k' :: rest
    else if strLtB k k' then k :: k' :: rest
    else k' :: nameInsert k rest

/-- Remove a key from the handler-name table (`_eventHandlers.erase(name)`). -/
def nameErase (k : String) : List String → List String
  | [] => []
  | k' :: rest => if k = k' then rest else k' :: nameErase k rest

/-- PluginManager state: `_loadedPlugins`, `_eventHandlers`, `_lastError`. -/
structure ManagerState where
  loadedPlugins : List (String × LoadedPlugin) := []
  eventHandlers : List String := []
  lastError : String := ""
deriving Repr

/-- `PluginManager::GetPlugin`. -/
def getPlugin (s : ManagerState) (name : String) : Option Plugin :=
  (mapFind name s.loadedPlugins).map (·.plugin)

/-- `PluginManager::GetLoadedPluginNames` (table iteration order). -/
def pluginNames (s : ManagerState) : List String :=
  s.loadedPlugins.map (·.1)

/-- Current lifecycle state of a named plugin, if loaded. -/
def stateOf (s : ManagerState) (name : String) : Option PluginState :=
  (getPlugin s name).map (·.state)

/-- `PluginManager::ValidatePlugin`: rejects an empty name or an empty
version, producing the error message; `none` means valid. -/
def validatePlugin (p : Plugin) : Option String :=
  if p.info.name = "" then some "Plugin name cannot be empty"
  else if p.info.version = "" then
    some ("Plugin version cannot be empty for plugin: " ++ p.info.name)
  else none

/-- `PluginManager::LoadPlugin`, from the point where the Loader has bound the
library and the factory has produced the instance `p` (file existence, binding
and instantiation failures are environment effects preceding this point).
Returns (success, new state, whether `UnloadPluginLibrary` released the
just-bound handle during the call). -/
def loadPlugin (s : ManagerState) (p : Plugin) : Bool × ManagerState × Bool :=
  match validatePlugin p with
  | some err => (false, { s with lastError := err }, true)
  | none =>
    let name := p.info.name
    if (mapFind name s.loadedPlugins).isSome then
      (false, { s with lastError := "Plugin already loaded: " ++ name }, true)
    else
      let r := p.doLoad
      if r.1 then
        (true, { s with loadedPlugins := mapInsert name { plugin := r.2, handleValid := true } s.loadedPlugins }, false)
      else
        (false, { s with lastError := "Plugin failed to load: " ++ name }, true)

/-- Observable steps of `UnloadPlugin`, in call order: the conditional
`Stop()`, the `Unload()` call with the state it leaves the plugin in, and the
handle release performed by `UnloadPluginLibrary`. -/
inductive UEvent
  | stopCall (name : String)
  | unloadCall (name : String) (after : PluginState)
  | releaseHandle (name : String)
deriving DecidableEq, Repr

/-- `PluginManager::UnloadPlugin`: on a missing name, sets the last error and
returns false; otherwise `Stop()` if RUNNING, then `Unload()`, then
`UnregisterEventHandler`, then `UnloadPluginLibrary` (releases the handle if
non-null), then erases the table entry.  The event list records the calls made
on the plugin and its handle, in order. -/
def unloadPlugin (s : ManagerState) (name : String) : Bool × ManagerState × List UEvent :=
  match mapFind name s.loadedPlugins with
  | none => (false, { s with lastError := "Plugin not found: " ++ name }, [])
  | some lp =>
    let stopped :=
      if lp.plugin.state = .RUNNING then (lp.plugin.doStop, [UEvent.stopCall name])
      else (lp.plugin, ([] : List UEvent))
    let p2 := stopped.1.doUnload
    let evs := stopped.2 ++ [UEvent.unloadCall name p2.state]
      ++ (if lp.handleValid then [UEvent.releaseHandle name] else [])
    (true,
      { s with
        loadedPlugins := mapErase name s.loadedPlugins,
        eventHandlers := nameErase name s.eventHandlers },
      evs)

/-- `PluginManager::InitializePlugin` (the identifier avoids the reserved
word): looks the plugin up, checks `CheckPluginDependencies` (which returns
the plugin's own `CheckDependencies()`), calls `Initialize()`, and on success
registers the event handler when `GetEventHandler()` is non-null.  There is no
check of the plugin's current lifecycle state. -/
def initPlugin (s : ManagerState) (name : String) : Bool × ManagerState :=
  match mapFind name s.loadedPlugins with
  | none => (false, s)
  | some lp =>
    if !lp.plugin.depsOk then (false, s)
    else
      let r := lp.plugin.doInit
      let s' := { s with loadedPlugins := mapInsert name { lp with plugin := r.2 } s.loadedPlugins }
      if !r.1 then (false, s')
      else if r.2.hasEventHandler then
        (true, { s' with eventHandlers := nameInsert name s'.eventHandlers })
      else (true, s')

/-- Per-entry effect of `StartAllPlugins`: `Start()` only a plugin whose state
is INITIALIZED. -/
def startLP (lp : LoadedPlugin) : LoadedPlugin :=
  if lp.plugin.state = .INITIALIZED then { lp with plugin := lp.plugin.doStart } else lp

/-- Per-entry effect of `StopAllPlugins`: `Stop()` only a plugin whose state is
RUNNING. -/
def stopLP (lp : LoadedPlugin) : LoadedPlugin :=
  if lp.plugin.state = .RUNNING then { lp with plugin := lp.plugin.doStop } else lp

/-- Table-entry form of `startLP`. -/
def startEntry (e : String × LoadedPlugin) : String × LoadedPlugin :=
  (e.1, startLP e.2)

/-- Table-entry form of `stopLP`. -/
def stopEntry (e : String × LoadedPlugin) : String × LoadedPlugin :=
  (e.1, stopLP e.2)

/-- `PluginManager::StartAllPlugins`. -/
def startAllPlugins (s : ManagerState) : ManagerState :=
  { s with loadedPlugins := s.loadedPlugins.map startEntry }

/-- `PluginManager::StopAllPlugins`.  Note: it does not touch
`_eventHandlers`. -/
def stopAllPlugins (s : ManagerState) : ManagerState :=
  { s with loadedPlugins := s.loadedPlugins.map stopEntry }

/-- The comparator step of `std::sort(prioritizedHandlers, a.first > b.first)`
realized as an insertion into an already priority-descending list: the element
is placed before the first strictly lower-priority element, hence after any
equal-priority elements already present. -/
def sortStep (x : Nat × String) : List (Nat × String) → List (Nat × String)
  | [] => [x]
  | y :: ys => if y.1 < x.1 then x :: y :: ys else y :: sortStep x ys

/-- Sort handler/priority pairs by descending priority. -/
def sortByPrioDesc (l : List (Nat × String)) : List (Nat × String) :=
  l.foldl (fun acc x => sortStep x acc) []

/-- The `prioritizedHandlers` vector built by `GetEventHandlersByPriority`:
walk `_eventHandlers` in table order and keep each handler whose owning plugin
exists and is RUNNING, paired with that plugin's priority. -/
def runningPrioritized (s : ManagerState) : List (Nat × String) :=
  s.eventHandlers.filterMap (fun n =>
    match getPlugin s n with
    | some p => if p.state = .RUNNING then some (p.info.priority.toNat, n) else none
    | none => none)

/-- `PluginManager::GetEventHandlersByPriority`: gather the running handlers
with their priorities, sort by descending priority, and return the
handlers. -/
def getEventHandlersByPriority (s : ManagerState) : List String :=
  (sortByPrioDesc (runningPrioritized s)).map (·.2)

/-- Whether the named plugin's `OnPlayerLogin` handler raises. -/
def handlerThrows (s : ManagerState) (n : String) : Bool :=
  match getPlugin s n with
  | some p => p.loginThrows
  | none => false

/-- The dispatch loop of a notification event
(`for (handler : handlers) handler->OnX(...)`): no try/catch, so the first
raising handler terminates the loop and the exception escapes.  Returns the
handlers invoked, in order, and whether an exception escaped to the host. -/
def runNotifLoop (s : ManagerState) : List String → List String × Bool
  | [] => ([], false)
  | h :: rest =>
    if handlerThrows s h then ([h], true)
    else
      let r := runNotifLoop s rest
      (h :: r.1, r.2)

/-- `PluginManager::OnPlayerLogin`: dispatch the notification to the
priority-ordered running handlers. -/
def onPlayerLogin (s : ManagerState) : List String × Bool :=
  runNotifLoop s (getEventHandlersByPriority s)

/-- `plugin->GetDependencies()` for a loaded plugin. -/
def getDependencies (s : ManagerState) (name : String) : Option (List String) :=
  (getPlugin s name).map (·.info.dependencies)

/-- The `for (dependency : dependencies)` loop body of
`PluginManager::ResolveDependencies`: skip dependencies already in the load
order, recurse (through `recur`) into the others, aborting with false as soon
as a recursive call fails. -/
def depLoop (recur : String → List String → Option (Bool × List String)) :
    List String → List String → Option (Bool × List String)
  | [], lo => some (true, lo)
  | d :: ds, lo =>
    if d ∈ lo then depLoop recur ds lo
    else
      match recur d lo with
      | none => none
      | some (false, lo') => some (false, lo')
      | some (true, lo') => depLoop recur ds lo'

/-- `PluginManager::ResolveDependencies` with explicit recursion-depth fuel:
an unknown plugin yields false with the order unchanged; otherwise the
dependencies are visited in declaration order and the plugin's name is
appended after them (post-order).  `none` models the C++ recursion not having
returned within `fuel` nested calls. -/
def resolveDependencies : Nat → ManagerState → String → List String → Option (Bool × List String)
  | 0, _, _, _ => none
  | fuel + 1, s, name, lo =>
    match getDependencies s name with
    | none => some (false, lo)
    | some deps =>
      match depLoop (fun d l => resolveDependencies fuel s d l) deps lo with
      | none => none
      | some (false, lo') => some (false, lo')
      | some (true, lo') => some (true, lo' ++ [name])

/-- The loop of `GetPluginLoadOrder` over the loaded plugin names: names
already placed are skipped; the boolean result of `ResolveDependencies` is
discarded, exactly as in the C++. -/
def loadOrderLoop (fuel : Nat) (s : ManagerState) : List String → List String → Option (List String)
  | [], lo => some lo
  | n :: ns, lo =>
    if n ∈ lo then loadOrderLoop fuel s ns lo
    else
      match resolveDependencies fuel s n lo with
      | none => none
      | some (_, lo') => loadOrderLoop fuel s ns lo'

/-- `PluginManager::GetPluginLoadOrder`. -/
def getPluginLoadOrder (fuel : Nat) (s : ManagerState) : Option (List String) :=
  loadOrderLoop fuel s (pluginNames s) []

/-- Declared dependencies of a name, empty for an unregistered name. -/
def depsOf (s : ManagerState) (name : String) : List String :=
  match getDependencies s name with
  | some d => d
  | none => []

/-- Post-order check on a reversed load order: each name's declared
dependencies all occur in the remainder (i.e. earlier in the unreversed
order). -/
def soundRevB (s : ManagerState) : List String → Bool
  | [] => true
  | n :: rest => (depsOf s n).all (fun d => decide (d ∈ rest)) && soundRevB s rest

/-- A load order is sound when every name appears strictly after all of its
declared dependencies. -/
def SoundOrder (s : ManagerState) (lo : List String) : Prop :=
  soundRevB s lo.reverse = true

end PluginSys

namespace PluginSys

/-! Helper lemmas about the association-list map operations. -/

/-- A key found after an overwrite-or-insert is the written value. -/
theorem mapFind_mapInsert_self {β : Type} (k : String) (v : β) :
    ∀ l : List (String × β), mapFind k (mapInsert k v l) = some v := by
  intro l
  induction l with
  | nil => simp [mapInsert, mapFind]
  | cons e rest ih =>
    by_cases h1 : k = e.1
    · simp [mapInsert, mapFind, h1]
    · by_cases h2 : strLtB k e.1 = true
      · simp [mapInsert, mapFind, h1, h2]
      · simp [mapInsert, mapFind, h1, h2, ih]

/-- A key absent from the table's keys is not found. -/
theorem mapFind_eq_none_of_not_mem {β : Type} (k : String) :
    ∀ l : List (String × β), k ∉ l.map (·.1) → mapFind k l = none := by
  intro l
  induction l with
  | nil => intro _; rfl
  | cons e rest ih =>
    intro h
    simp only [List.map_cons, List.mem_cons] at h
    push_neg at h
    simp only [mapFind, if_neg h.1]
    exact ih h.2

/-- Erasing a key from a duplicate-free table removes it. -/
theorem mapFind_mapErase_self {β : Type} (k : String) :
    ∀ l : List (String × β), (l.map (·.1)).Nodup → mapFind k (mapErase k l) = none := by
  intro l
  induction l with
  | nil => intro _; rfl
  | cons e rest ih =>
    intro hnd
    simp only [List.map_cons, List.nodup_cons] at hnd
    by_cases h1 : k = e.1
    · simp only [mapErase, if_pos h1]
      apply mapFind_eq_none_of_not_mem
      rw [h1]
      exact hnd.1
    · simp only [mapErase, if_neg h1, mapFind, if_neg h1]
      exact ih hnd.2

/-- A key is found iff it occurs among the table's keys. -/
theorem mapFind_isSome_iff {β : Type} (k : String) :
    ∀ l : List (String × β), (mapFind k l).isSome = true ↔ k ∈ l.map (·.1) := by
  intro l
  induction l with
  | nil => simp [mapFind]
  | cons e rest ih =>
    by_cases h1 : k = e.1
    · simp [mapFind, h1]
    · simp [mapFind, h1, ih, Ne.symm h1]

/-- Erasing a name from a duplicate-free name table removes it. -/
theorem not_mem_nameErase_self (k : String) :
    ∀ l : List String, l.Nodup → k ∉ nameErase k l := by
  intro l
  induction l with
  | nil => intro _; simp [nameErase]
  | cons e rest ih =>
    intro hnd
    simp only [List.nodup_cons] at hnd
    by_cases h1 : k = e
    · simp only [nameErase, if_pos h1]
      subst h1
      exact hnd.1
    · simp only [nameErase, if_neg h1, List.mem_cons]
      intro hc
      rcases hc with hc | hc
      · exact h1 hc
      · exact ih hnd.2 hc

/-! Scenario states used by the claims. -/

/-- A bare descriptor-only plugin with the given name and dependency list. -/
def mkP (n : String) (deps : List String) : Plugin :=
  { info := { name := n, version := "1", dependencies := deps } }

/-- Registry whose dependency graph is the two-cycle A -> B -> A. -/
def cycState : ManagerState :=
  { loadedPlugins := [("A", { plugin := mkP "A" ["B"] }), ("B", { plugin := mkP "B" ["A"] })] }

/-- Registry where A declares the unregistered dependency Ghost and B has
none. -/
def missState : ManagerState :=
  { loadedPlugins := [("A", { plugin := mkP "A" ["Ghost"] }), ("B", { plugin := mkP "B" [] })] }

/-- Acyclic registry: P depends on B then A (declaration order), A and B are
independent; note the table order lists A before B. -/
def acState : ManagerState :=
  { loadedPlugins := [("P", { plugin := mkP "P" ["B", "A"] }),
                      ("A", { plugin := mkP "A" [] }),
                      ("B", { plugin := mkP "B" [] })] }

/-- On the two-cycle, neither A nor B ever resolves, at any recursion depth:
each level of fuel is consumed by the mutual recursion A -> B -> A -> ... -/
theorem cyc_resolve_none (fuel : Nat) : ∀ lo : List String, "A" ∉ lo → "B" ∉ lo →
    resolveDependencies fuel cycState "A" lo = none ∧
    resolveDependencies fuel cycState "B" lo = none := by
  induction fuel with
  | zero => exact fun lo _ _ => ⟨rfl, rfl⟩
  | succ n ih =>
    intro lo hA hB
    have hAn := (ih lo hA hB).1
    have hBn := (ih lo hA hB).2
    constructor
    · show (match depLoop (fun d l => resolveDependencies n cycState d l) ["B"] lo with
        | none => none
        | some (false, lo') => some (false, lo')
        | some (true, lo') => some (true, lo' ++ ["A"])) = none
      have hdl : depLoop (fun d l => resolveDependencies n cycState d l) ["B"] lo = none := by
        simp only [depLoop, if_neg hB, hBn]
      rw [hdl]
    · show (match depLoop (fun d l => resolveDependencies n cycState d l) ["A"] lo with
        | none => none
        | some (false, lo') => some (false, lo')
        | some (true, lo') => some (true, lo' ++ ["B"])) = none
      have hdl : depLoop (fun d l => resolveDependencies n cycState d l) ["A"] lo = none := by
        simp only [depLoop, if_neg hA, hAn]
      rw [hdl]

/-- Claim C1: the spec says a cyclic dependency graph makes the load-order
computation fail with CyclicDependency, terminate, and leave Registry state
unchanged.  The code has no cycle check (HasCircularDependency is declared in
PluginManager.h but never defined or called): on the two-cycle A <-> B,
ResolveDependencies recurses forever, so GetPluginLoadOrder never returns at
any recursion depth.  This contradicts the code's own README ("Prevents
circular dependencies"), so it is a code bug rather than a spec error. -/
theorem c1_cycle_never_returns : ∀ fuel : Nat, getPluginLoadOrder fuel cycState = none := by
  intro fuel
  have h := (cyc_resolve_none fuel [] (by simp) (by simp)).1
  show loadOrderLoop fuel cycState ["A", "B"] [] = none
  simp only [loadOrderLoop, List.not_mem_nil, if_neg, h]
  simp

/-- Claim C3, counterexample: with A declaring the unregistered dependency
Ghost, GetPluginLoadOrder succeeds, silently omitting A (which is registered),
instead of signalling MissingDependency to its caller. -/
theorem c3_counterexample :
    getPluginLoadOrder 5 missState = some ["B"] ∧
    "A" ∈ pluginNames missState ∧ "A" ∉ ["B"] := by
  refine ⟨rfl, by decide, by decide⟩

/-- Claim C3, amended: ResolveDependencies does report failure (returns false,
appending nothing) when it reaches an unregistered name, but GetPluginLoadOrder
discards that flag (see `loadOrderLoop`), so the affected extension is merely
omitted and no MissingDependency error reaches the caller. -/
theorem c3_missing_dep_reports_false (fuel : Nat) (s : ManagerState) (d : String)
    (lo : List String) (h : getPlugin s d = none) :
    resolveDependencies (fuel + 1) s d lo = some (false, lo) := by
  have hd : getDependencies s d = none := by
    simp [getDependencies, h]
  show (match getDependencies s d with
    | none => some (false, lo)
    | some deps =>
      match depLoop (fun d' l => resolveDependencies fuel s d' l) deps lo with
      | none => none
      | some (false, lo') => some (false, lo')
      | some (true, lo') => some (true, lo' ++ [d])) = some (false, lo)
  rw [hd]

/-- Witness for the amended C3 at a concrete input. -/
theorem c3_missing_dep_reports_false_witness :
    resolveDependencies 4 missState "Ghost" [] = some (false, []) :=
  c3_missing_dep_reports_false 3 missState "Ghost" [] rfl

/-- Claim C10: unloading a name absent from the table returns false and leaves
the plugin table and the handler table unchanged; no lifecycle call and no
handle release happens (empty event list).  Only the last-error slot is
written. -/
theorem c10_unload_missing (s : ManagerState) (name : String)
    (h : mapFind name s.loadedPlugins = none) :
    (unloadPlugin s name).1 = false ∧
    (unloadPlugin s name).2.1.loadedPlugins = s.loadedPlugins ∧
    (unloadPlugin s name).2.1.eventHandlers = s.eventHandlers ∧
    (unloadPlugin s name).2.2 = [] := by
  simp [unloadPlugin, h]

/-- Witness for C10 at a concrete input. -/
theorem c10_unload_missing_witness :
    (unloadPlugin cycState "Nope").1 = false ∧
    (unloadPlugin cycState "Nope").2.1.loadedPlugins = cycState.loadedPlugins ∧
    (unloadPlugin cycState "Nope").2.1.eventHandlers = cycState.eventHandlers ∧
    (unloadPlugin cycState "Nope").2.2 = [] :=
  c10_unload_missing cycState "Nope" rfl

end PluginSys

namespace PluginSys

/-- Looking up a key after a key-preserving per-entry map applies the entry
function to the found value. -/
theorem mapFind_map_snd {β : Type} (g : β → β) (k : String) :
    ∀ l : List (String × β),
      mapFind k (l.map (fun e => (e.1, g e.2))) = (mapFind k l).map g := by
  intro l
  induction l with
  | nil => rfl
  | cons e rest ih =>
    by_cases h : k = e.1 <;> simp [mapFind, h, ih]

/-- `StartAllPlugins` sends an INITIALIZED plugin to RUNNING and leaves any
other state unchanged. -/
theorem stateOf_startAll (t : ManagerState) (m : String) (st : PluginState)
    (ht : stateOf t m = some st) :
    stateOf (startAllPlugins t) m = some (if st = .INITIALIZED then .RUNNING else st) := by
  simp only [stateOf, getPlugin, Option.map_map, Option.map_eq_some'] at ht
  obtain ⟨lp, hfind, hst⟩ := ht
  have : (startAllPlugins t).loadedPlugins = t.loadedPlugins.map (fun e => (e.1, startLP e.2)) := rfl
  simp only [stateOf, getPlugin, this, mapFind_map_snd, hfind, Option.map_map, Option.map_some']
  simp only [Function.comp_apply, startLP, Plugin.doStart]
  subst hst
  by_cases h : lp.plugin.state = .INITIALIZED <;> simp [h]

/-- `StopAllPlugins` sends a RUNNING plugin to LOADED (through `Stop()`) and
leaves any other state unchanged. -/
theorem stateOf_stopAll (t : ManagerState) (m : String) (st : PluginState)
    (ht : stateOf t m = some st) :
    stateOf (stopAllPlugins t) m = some (if st = .RUNNING then .LOADED else st) := by
  simp only [stateOf, getPlugin, Option.map_map, Option.map_eq_some'] at ht
  obtain ⟨lp, hfind, hst⟩ := ht
  have : (stopAllPlugins t).loadedPlugins = t.loadedPlugins.map (fun e => (e.1, stopLP e.2)) := rfl
  simp only [stateOf, getPlugin, this, mapFind_map_snd, hfind, Option.map_map, Option.map_some']
  simp only [Function.comp_apply, stopLP, Plugin.doStop]
  subst hst
  by_cases h : lp.plugin.state = .RUNNING <;> simp [h]

/-- The empty manager state. -/
def emptyState : ManagerState := {}

/-- A plugin exposing an event handler, used to build concrete scenarios. -/
def pRun : Plugin := { info := { name := "E", version := "1" }, hasEventHandler := true }

/-- State after loading, initializing and starting plugin E: E is RUNNING with
its handler binding registered. -/
def sRun : ManagerState := startAllPlugins (initPlugin (loadPlugin emptyState pRun).2.1 "E").2

/-- The table entry of E in `sRun`. -/
def lpRun : LoadedPlugin := { plugin := { pRun with state := .RUNNING }, handleValid := true }

/-- Claim C6: unloading a RUNNING extension first calls `Stop()`, then
`Unload()` (leaving the plugin in state UNLOADED), then releases the handle
exactly once (one release event), and erases the table entry. -/
theorem c6_unload_running (s : ManagerState) (name : String) (lp : LoadedPlugin)
    (h : mapFind name s.loadedPlugins = some lp)
    (hr : lp.plugin.state = .RUNNING) (hh : lp.handleValid = true)
    (hnd : (s.loadedPlugins.map (·.1)).Nodup) :
    (unloadPlugin s name).1 = true ∧
    (unloadPlugin s name).2.2 =
      [UEvent.stopCall name, UEvent.unloadCall name .UNLOADED, UEvent.releaseHandle name] ∧
    mapFind name ((unloadPlugin s name).2.1).loadedPlugins = none := by
  refine ⟨?_, ?_, ?_⟩
  · simp [unloadPlugin, h]
  · simp [unloadPlugin, h, hr, hh, Plugin.doStop, Plugin.doUnload]
  · simp only [unloadPlugin, h]
    exact mapFind_mapErase_self name s.loadedPlugins hnd

/-- Witness for C6: unloading the RUNNING plugin E of `sRun`. -/
theorem c6_unload_running_witness :
    (unloadPlugin sRun "E").1 = true ∧
    (unloadPlugin sRun "E").2.2 =
      [UEvent.stopCall "E", UEvent.unloadCall "E" .UNLOADED, UEvent.releaseHandle "E"] ∧
    mapFind "E" ((unloadPlugin sRun "E").2.1).loadedPlugins = none :=
  c6_unload_running sRun "E" lpRun (by decide) (by decide) (by decide) (by decide)

/-- Claim C7: LoadPlugin rejects an empty name, an empty version, or a name
already present; on rejection it returns false, releases the just-bound
handle, creates no table entry, and leaves the existing tables untouched. -/
theorem c7_load_validation (s : ManagerState) (p : Plugin)
    (h : p.info.name = "" ∨ p.info.version = "" ∨
      (mapFind p.info.name s.loadedPlugins).isSome = true) :
    (loadPlugin s p).1 = false ∧
    (loadPlugin s p).2.1.loadedPlugins = s.loadedPlugins ∧
    (loadPlugin s p).2.1.eventHandlers = s.eventHandlers ∧
    (loadPlugin s p).2.2 = true := by
  rcases h with h | h | h
  · simp [loadPlugin, validatePlugin, h]
  · by_cases hn : p.info.name = "" <;> simp [loadPlugin, validatePlugin, h, hn]
  · by_cases hn : p.info.name = ""
    · simp [loadPlugin, validatePlugin, hn]
    · by_cases hv : p.info.version = "" <;> simp [loadPlugin, validatePlugin, hn, hv, h]

/-- Witness for C7: loading a duplicate of the already-registered E into
`sRun` fails and leaves the tables unchanged. -/
theorem c7_load_validation_witness :
    (loadPlugin sRun pRun).1 = false ∧
    (loadPlugin sRun pRun).2.1.loadedPlugins = sRun.loadedPlugins ∧
    (loadPlugin sRun pRun).2.1.eventHandlers = sRun.eventHandlers ∧
    (loadPlugin sRun pRun).2.2 = true :=
  c7_load_validation sRun pRun (Or.inr (Or.inr (by decide)))

/-- Claim C8, counterexample: E is RUNNING in `sRun`, a state from which the
section 4.2 table lists no `initialize` transition, yet `InitializePlugin`
succeeds (returns true) and moves the state to INITIALIZED instead of
rejecting with InvalidTransition and leaving the state unchanged.  No
InvalidTransition error exists anywhere in the code. -/
theorem c8_counterexample :
    stateOf sRun "E" = some .RUNNING ∧
    (initPlugin sRun "E").1 = true ∧
    stateOf (initPlugin sRun "E").2 "E" = some .INITIALIZED := by
  decide

/-- Claim C8, amended: only the bulk operations are state-guarded —
`StartAllPlugins` starts exactly the INITIALIZED plugins and `StopAllPlugins`
stops exactly the RUNNING ones, leaving all other states unchanged without
error — while `InitializePlugin` performs `Initialize()` regardless of the
plugin's current state (no InvalidTransition rejection). -/
theorem c8_amended (s : ManagerState) (n : String) (lp : LoadedPlugin)
    (h : mapFind n s.loadedPlugins = some lp)
    (hd : lp.plugin.depsOk = true) (hi : lp.plugin.initOk = true)
    (t : ManagerState) (m : String) (st : PluginState)
    (ht : stateOf t m = some st) :
    ((initPlugin s n).1 = true ∧ stateOf (initPlugin s n).2 n = some .INITIALIZED) ∧
    stateOf (startAllPlugins t) m = some (if st = .INITIALIZED then .RUNNING else st) ∧
    stateOf (stopAllPlugins t) m = some (if st = .RUNNING then .LOADED else st) := by
  refine ⟨?_, stateOf_startAll t m st ht, stateOf_stopAll t m st ht⟩
  cases hEH : lp.plugin.hasEventHandler <;>
    simp [initPlugin, h, hd, hi, Plugin.doInit, hEH, stateOf, getPlugin, mapFind_mapInsert_self]

/-- Witness for the amended C8 at concrete inputs: E is LOADED after
loadPlugin, and `sRun` exercises the start/stop guards on a RUNNING plugin. -/
theorem c8_amended_witness :
    ((initPlugin (loadPlugin emptyState pRun).2.1 "E").1 = true ∧
      stateOf (initPlugin (loadPlugin emptyState pRun).2.1 "E").2 "E" = some .INITIALIZED) ∧
    stateOf (startAllPlugins sRun) "E" =
      some (if PluginState.RUNNING = .INITIALIZED then .RUNNING else .RUNNING) ∧
    stateOf (stopAllPlugins sRun) "E" =
      some (if PluginState.RUNNING = .RUNNING then .LOADED else .RUNNING) :=
  c8_amended (loadPlugin emptyState pRun).2.1 "E"
    { plugin := { pRun with state := .LOADED }, handleValid := true }
    (by decide) (by decide) (by decide) sRun "E" .RUNNING (by decide)

/-- Claim C9, counterexample: after stopping the running E (which ends in
state LOADED), its handler binding is still present in the dispatch table —
the code unregisters bindings only in UnloadPlugin, so the claimed invariant
"a binding exists iff the extension is INITIALIZED or RUNNING" fails. -/
theorem c9_counterexample :
    stateOf (stopAllPlugins sRun) "E" = some .LOADED ∧
    "E" ∈ (stopAllPlugins sRun).eventHandlers := by
  decide

/-- Claim C9, amended: `StopAllPlugins` leaves the handler table untouched (a
stopped extension keeps its binding); a binding is removed only by
UnloadPlugin, which always erases the unloaded name's binding. -/
theorem c9_amended (s : ManagerState) (n : String) (lp : LoadedPlugin)
    (hn : s.eventHandlers.Nodup) (h : mapFind n s.loadedPlugins = some lp) :
    (stopAllPlugins s).eventHandlers = s.eventHandlers ∧
    (unloadPlugin s n).1 = true ∧
    n ∉ ((unloadPlugin s n).2.1).eventHandlers := by
  refine ⟨rfl, ?_, ?_⟩
  · simp [unloadPlugin, h]
  · simp only [unloadPlugin, h]
    exact not_mem_nameErase_self n s.eventHandlers hn

/-- Witness for the amended C9 on `sRun`. -/
theorem c9_amended_witness :
    (stopAllPlugins sRun).eventHandlers = sRun.eventHandlers ∧
    (unloadPlugin sRun "E").1 = true ∧
    "E" ∉ ((unloadPlugin sRun "E").2.1).eventHandlers :=
  c9_amended sRun "E" lpRun (by decide) (by decide)

end PluginSys

namespace PluginSys

/-! Dispatch scenarios and claims C4 and C5. -/

/-- Plugin whose `OnPlayerLogin` handler raises; priority HIGH. -/
def pH1 : Plugin :=
  { info := { name := "H1", version := "1", priority := .HIGH },
    hasEventHandler := true, loginThrows := true }

/-- Well-behaved plugin at priority NORMAL. -/
def pH2 : Plugin :=
  { info := { name := "H2", version := "1", priority := .NORMAL }, hasEventHandler := true }

/-- Well-behaved plugin at priority LOW. -/
def pH3 : Plugin :=
  { info := { name := "H3", version := "1", priority := .LOW }, hasEventHandler := true }

/-- State with H1, H2, H3 loaded, initialized and RUNNING, so dispatch order
is [H1, H2, H3] and H1's handler raises. -/
def sC5 : ManagerState :=
  startAllPlugins (initPlugin (initPlugin (initPlugin
    (loadPlugin (loadPlugin (loadPlugin emptyState pH1).2.1 pH2).2.1 pH3).2.1
    "H1").2 "H2").2 "H3").2

/-- Claim C5, counterexample: three handlers are scheduled, the first raises,
and because the dispatch loops of OnPlayerLogin/OnWorldUpdate have no
try/catch, only the first handler runs and the exception escapes to the host;
H2 and H3 are never invoked, contrary to the claim. -/
theorem c5_counterexample :
    getEventHandlersByPriority sC5 = ["H1", "H2", "H3"] ∧
    onPlayerLogin sC5 = (["H1"], true) ∧
    "H2" ∉ (onPlayerLogin sC5).1 ∧ "H3" ∉ (onPlayerLogin sC5).1 := by
  decide

/-- Auxiliary: a notification dispatch over handlers `pre ++ h0 :: post`
where no handler of `pre` raises and `h0` raises invokes exactly
`pre ++ [h0]` and lets the exception escape. -/
theorem runNotifLoop_throw (s : ManagerState) (h0 : String) (post : List String)
    (hthrow : handlerThrows s h0 = true) :
    ∀ pre : List String, (∀ g ∈ pre, handlerThrows s g = false) →
      runNotifLoop s (pre ++ h0 :: post) = (pre ++ [h0], true) := by
  intro pre
  induction pre with
  | nil => intro _; simp [runNotifLoop, hthrow]
  | cons g pre' ih =>
    intro hp
    have hg : handlerThrows s g = false := hp g (by simp)
    have := ih (fun x hx => hp x (by simp [hx]))
    simp [runNotifLoop, hg, this]

/-- Claim C5, amended: when a handler raises during a notification event, the
handlers before it (in dispatch order) have run, it runs, and the exception
propagates to the host, aborting dispatch to every handler after it — there
is no per-handler catch. -/
theorem c5_throw_aborts_dispatch (s : ManagerState) (pre : List String) (h0 : String)
    (post : List String)
    (hdisp : getEventHandlersByPriority s = pre ++ h0 :: post)
    (hpre : ∀ g ∈ pre, handlerThrows s g = false)
    (hthrow : handlerThrows s h0 = true) :
    onPlayerLogin s = (pre ++ [h0], true) := by
  rw [onPlayerLogin, hdisp]
  exact runNotifLoop_throw s h0 post hthrow pre hpre

/-- Witness for the amended C5 on `sC5`. -/
theorem c5_throw_aborts_dispatch_witness :
    onPlayerLogin sC5 = (["H1"], true) :=
  c5_throw_aborts_dispatch sC5 [] "H1" ["H2", "H3"] (by decide) (by simp) (by decide)

/-- Plugin Zeta, priority HIGH, with a handler. -/
def pZeta : Plugin :=
  { info := { name := "Zeta", version := "1", priority := .HIGH }, hasEventHandler := true }

/-- Plugin Alpha, priority HIGH, with a handler. -/
def pAlpha : Plugin :=
  { info := { name := "Alpha", version := "1", priority := .HIGH }, hasEventHandler := true }

/-- Zeta and Alpha loaded and RUNNING; the handler of Zeta was registered
first (its `initPlugin` ran first), Alpha's second. -/
def sC4 : ManagerState :=
  startAllPlugins (initPlugin
    (initPlugin (loadPlugin (loadPlugin emptyState pZeta).2.1 pAlpha).2.1 "Zeta").2
    "Alpha").2

/-- Claim C4, counterexample: Zeta's handler was registered before Alpha's and
both have equal priority HIGH, so the claim requires dispatch order
[Zeta, Alpha]; but `_eventHandlers` is an unordered_map whose iteration order
is unrelated to registration order (here the canonical order [Alpha, Zeta]),
`std::sort` is not stable, and the code keeps no registration sequence at all,
so the dispatch order is [Alpha, Zeta]. -/
theorem c4_counterexample :
    getEventHandlersByPriority sC4 = ["Alpha", "Zeta"] ∧
    (["Alpha", "Zeta"] : List String) ≠ ["Zeta", "Alpha"] := by
  decide

/-! Sorting lemmas for the amended C4. -/

/-- Membership through one insertion step of the descending sort. -/
theorem mem_sortStep (x z : Nat × String) :
    ∀ l : List (Nat × String), z ∈ sortStep x l ↔ z = x ∨ z ∈ l := by
  intro l
  induction l with
  | nil => simp [sortStep]
  | cons y ys ih =>
    by_cases h : y.1 < x.1
    · simp [sortStep, h]
    · simp only [sortStep, if_neg h, List.mem_cons, ih]
      tauto

/-- Inserting into a priority-descending list keeps it descending. -/
theorem pairwise_sortStep (x : Nat × String) :
    ∀ l : List (Nat × String), List.Pairwise (fun a b => b.1 ≤ a.1) l →
      List.Pairwise (fun a b => b.1 ≤ a.1) (sortStep x l) := by
  intro l
  induction l with
  | nil => intro _; simp [sortStep]
  | cons y ys ih =>
    intro hp
    rcases List.pairwise_cons.1 hp with ⟨hy, hys⟩
    by_cases h : y.1 < x.1
    · simp only [sortStep, if_pos h]
      refine List.pairwise_cons.2 ⟨?_, hp⟩
      intro b hb
      rcases List.mem_cons.1 hb with rfl | hb
      · exact Nat.le_of_lt h
      · exact le_trans (hy b hb) (Nat.le_of_lt h)
    · simp only [sortStep, if_neg h]
      refine List.pairwise_cons.2 ⟨?_, ih hys⟩
      intro b hb
      rcases (mem_sortStep x b ys).1 hb with rfl | hb
      · exact Nat.le_of_not_lt h
      · exact hy b hb

/-- The fold of insertion steps keeps the accumulator descending. -/
theorem pairwise_sortFold :
    ∀ (l acc : List (Nat × String)), List.Pairwise (fun a b => b.1 ≤ a.1) acc →
      List.Pairwise (fun a b => b.1 ≤ a.1) (l.foldl (fun a x => sortStep x a) acc) := by
  intro l
  induction l with
  | nil => intro acc h; exact h
  | cons x xs ih => intro acc h; exact ih _ (pairwise_sortStep x acc h)

/-- The sorted handler list is descending in priority. -/
theorem pairwise_sortByPrioDesc (l : List (Nat × String)) :
    List.Pairwise (fun a b => b.1 ≤ a.1) (sortByPrioDesc l) :=
  pairwise_sortFold l [] (by simp)

/-- Membership through the fold of insertion steps. -/
theorem mem_sortFold (z : Nat × String) :
    ∀ (l acc : List (Nat × String)),
      z ∈ l.foldl (fun a x => sortStep x a) acc ↔ z ∈ acc ∨ z ∈ l := by
  intro l
  induction l with
  | nil => simp
  | cons x xs ih =>
    intro acc
    simp only [List.foldl_cons, ih, mem_sortStep, List.mem_cons]
    tauto

/-- Sorting neither adds nor removes handlers. -/
theorem mem_sortByPrioDesc (z : Nat × String) (l : List (Nat × String)) :
    z ∈ sortByPrioDesc l ↔ z ∈ l := by
  simp [sortByPrioDesc, mem_sortFold]

/-- Priority of a named plugin (0 when it is not loaded). -/
def prioOf (s : ManagerState) (n : String) : Nat :=
  match getPlugin s n with
  | some p => p.info.priority.toNat
  | none => 0

/-- Characterization of the prioritized-handler list: its members are exactly
the bound handlers whose owning plugin is RUNNING, carrying that plugin's
priority. -/
theorem mem_runningPrioritized (s : ManagerState) (x : Nat × String) :
    x ∈ runningPrioritized s ↔
      (x.2 ∈ s.eventHandlers ∧ stateOf s x.2 = some .RUNNING ∧ x.1 = prioOf s x.2) := by
  rw [runningPrioritized, List.mem_filterMap]
  constructor
  · rintro ⟨n, hn, hf⟩
    cases hg : getPlugin s n with
    | none => simp [hg] at hf
    | some p =>
      simp only [hg] at hf
      by_cases hr : p.state = .RUNNING
      · rw [if_pos hr] at hf
        obtain rfl := Option.some.inj hf
        refine ⟨hn, ?_, ?_⟩ <;> simp [stateOf, prioOf, hg, hr]
      · rw [if_neg hr] at hf
        cases hf
  · rintro ⟨hmem, hrun, hprio⟩
    refine ⟨x.2, hmem, ?_⟩
    simp only [stateOf, Option.map_eq_some'] at hrun
    obtain ⟨p, hg, hst⟩ := hrun
    simp only [hg, if_pos hst]
    have hx1 : x.1 = p.info.priority.toNat := by
      rw [hprio]; simp [prioOf, hg]
    cases x
    simp_all

/-- Claim C4, amended: every dispatch invokes exactly the handlers whose
owning extension is RUNNING, in nonincreasing priority order; the relative
order of equal-priority handlers is the unordered map's iteration order (not
related to registration order). -/
theorem c4_running_desc_priority (s : ManagerState) :
    (∀ n, n ∈ getEventHandlersByPriority s ↔
      (n ∈ s.eventHandlers ∧ stateOf s n = some .RUNNING)) ∧
    List.Pairwise (fun a b => prioOf s b ≤ prioOf s a) (getEventHandlersByPriority s) := by
  constructor
  · intro n
    constructor
    · intro hn
      simp only [getEventHandlersByPriority, List.mem_map] at hn
      obtain ⟨x, hx, rfl⟩ := hn
      rw [mem_sortByPrioDesc] at hx
      have hch := (mem_runningPrioritized s x).1 hx
      exact ⟨hch.1, hch.2.1⟩
    · rintro ⟨hmem, hrun⟩
      simp only [getEventHandlersByPriority, List.mem_map]
      refine ⟨(prioOf s n, n), ?_, rfl⟩
      rw [mem_sortByPrioDesc]
      exact (mem_runningPrioritized s (prioOf s n, n)).2 ⟨hmem, hrun, rfl⟩
  · have hpw := pairwise_sortByPrioDesc (runningPrioritized s)
    simp only [getEventHandlersByPriority]
    rw [List.pairwise_map]
    refine hpw.imp_of_mem ?_
    intro a b ha hb hr
    have ha' := (mem_runningPrioritized s a).1 ((mem_sortByPrioDesc a _).1 ha)
    have hb' := (mem_runningPrioritized s b).1 ((mem_sortByPrioDesc b _).1 hb)
    rw [← ha'.2.2, ← hb'.2.2]
    exact hr

end PluginSys

namespace PluginSys

/-! Claim C2: on an acyclic, dependency-closed registry the load order is a
topological (post-)order.  Acyclicity of the finite dependency graph is
formalized as the existence of a rank function strictly decreasing along
dependency edges (such a function exists exactly when the graph has no
cycle). -/

/-- Every declared dependency of a registered plugin is itself registered. -/
def ClosedDeps (s : ManagerState) : Prop :=
  ∀ n ∈ pluginNames s, ∀ d ∈ depsOf s n, d ∈ pluginNames s

/-- `rank` strictly decreases along dependency edges: this is the witness
form of acyclicity for the finite dependency graph. -/
def RankCompat (s : ManagerState) (rank : String → Nat) : Prop :=
  ∀ n ∈ pluginNames s, ∀ d ∈ depsOf s n, rank d < rank n

instance decClosedDeps (s : ManagerState) : Decidable (ClosedDeps s) :=
  inferInstanceAs (Decidable (∀ n ∈ pluginNames s, ∀ d ∈ depsOf s n, d ∈ pluginNames s))

instance decRankCompat (s : ManagerState) (rank : String → Nat) :
    Decidable (RankCompat s rank) :=
  inferInstanceAs (Decidable (∀ n ∈ pluginNames s, ∀ d ∈ depsOf s n, rank d < rank n))

/-- A registered plugin's dependency list is retrievable. -/
theorem getDependencies_of_mem (s : ManagerState) (n : String) (h : n ∈ pluginNames s) :
    getDependencies s n = some (depsOf s n) := by
  have hsome := (mapFind_isSome_iff n s.loadedPlugins).2 h
  cases hf : mapFind n s.loadedPlugins with
  | none => rw [hf] at hsome; cases hsome
  | some lp => simp [getDependencies, depsOf, getPlugin, hf]

/-- Appending a name whose dependencies are already present preserves
soundness of the order. -/
theorem SoundOrder_append (s : ManagerState) (lo : List String) (n : String)
    (hdeps : ∀ d ∈ depsOf s n, d ∈ lo) (hs : SoundOrder s lo) :
    SoundOrder s (lo ++ [n]) := by
  unfold SoundOrder at hs ⊢
  rw [List.reverse_append, List.reverse_singleton, List.singleton_append]
  show ((depsOf s n).all (fun d => decide (d ∈ lo.reverse)) && soundRevB s lo.reverse) = true
  rw [hs, Bool.and_true, List.all_eq_true]
  intro d hd
  exact decide_eq_true (List.mem_reverse.2 (hdeps d hd))

/-- Completeness and soundness of `ResolveDependencies` on an acyclic,
dependency-closed registry: with fuel exceeding the plugin's rank, resolution
succeeds, extends the order by a block that contains the plugin, keeps the
order duplicate-free and sound, and adds only registered names of rank at
most the plugin's. -/
theorem resolve_complete (s : ManagerState) (rank : String → Nat)
    (hC : ClosedDeps s) (hR : RankCompat s rank) :
    ∀ fuel : Nat, ∀ name lo, name ∈ pluginNames s → rank name < fuel → name ∉ lo →
      lo.Nodup → SoundOrder s lo →
      ∃ tail, resolveDependencies fuel s name lo = some (true, lo ++ tail) ∧
        name ∈ tail ∧ (lo ++ tail).Nodup ∧ SoundOrder s (lo ++ tail) ∧
        (∀ x ∈ tail, x ∈ pluginNames s ∧ rank x ≤ rank name) := by
  intro fuel
  induction fuel with
  | zero => intro name lo _ hlt; exact absurd hlt (Nat.not_lt_zero _)
  | succ m ih =>
    have loopLemma : ∀ (ds lo : List String) (B : Nat), B ≤ m →
        (∀ d ∈ ds, d ∈ pluginNames s ∧ rank d < B) → lo.Nodup → SoundOrder s lo →
        ∃ tail, depLoop (fun d l => resolveDependencies m s d l) ds lo = some (true, lo ++ tail) ∧
          (∀ d ∈ ds, d ∈ lo ++ tail) ∧ (lo ++ tail).Nodup ∧ SoundOrder s (lo ++ tail) ∧
          ∀ x ∈ tail, x ∈ pluginNames s ∧ rank x < B := by
      intro ds
      induction ds with
      | nil =>
        intro lo B _ _ hnd hs
        refine ⟨[], by simp [depLoop], by simp, ?_, ?_, by simp⟩
        · simpa using hnd
        · simpa using hs
      | cons d ds ihd =>
        intro lo B hB hds hnd hs
        obtain ⟨hdN, hdB⟩ := hds d (List.mem_cons_self d ds)
        have hds' : ∀ x ∈ ds, x ∈ pluginNames s ∧ rank x < B :=
          fun x hx => hds x (List.mem_cons_of_mem d hx)
        by_cases hmem : d ∈ lo
        · obtain ⟨tail, h1, h2, h3, h4, h5⟩ := ihd lo B hB hds' hnd hs
          refine ⟨tail, ?_, ?_, h3, h4, h5⟩
          · simp only [depLoop, if_pos hmem]
            exact h1
          · intro x hx
            rcases List.mem_cons.1 hx with rfl | hx
            · exact List.mem_append_left tail hmem
            · exact h2 x hx
        · have hdm : rank d < m := lt_of_lt_of_le hdB hB
          obtain ⟨t1, r1, rin, rnd, rs, rbnd⟩ := ih d lo hdN hdm hmem hnd hs
          obtain ⟨t2, h1, h2, h3, h4, h5⟩ := ihd (lo ++ t1) B hB hds' rnd rs
          refine ⟨t1 ++ t2, ?_, ?_, ?_, ?_, ?_⟩
          · simp only [depLoop, if_neg hmem, r1, h1]
            rw [List.append_assoc]
          · intro x hx
            rcases List.mem_cons.1 hx with rfl | hx
            · rw [← List.append_assoc]
              exact List.mem_append_left t2 (List.mem_append_right lo rin)
            · rw [← List.append_assoc]
              exact h2 x hx
          · rw [← List.append_assoc]
            exact h3
          · rw [← List.append_assoc]
            exact h4
          · intro x hx
            rcases List.mem_append.1 hx with hx | hx
            · obtain ⟨hxN, hxr⟩ := rbnd x hx
              exact ⟨hxN, lt_of_le_of_lt hxr hdB⟩
            · exact h5 x hx
    intro name lo hname hlt hnotin hnd hs
    have hrankle : rank name ≤ m := Nat.lt_succ_iff.1 hlt
    have hdeps := getDependencies_of_mem s name hname
    obtain ⟨t1, hdl, hsubset, hnd1, hs1, hbnd1⟩ :=
      loopLemma (depsOf s name) lo (rank name) hrankle
        (fun d hd => ⟨hC name hname d hd, hR name hname d hd⟩) hnd hs
    refine ⟨t1 ++ [name], ?_, by simp, ?_, ?_, ?_⟩
    · simp only [resolveDependencies, hdeps, hdl]
      rw [List.append_assoc]
    · rw [← List.append_assoc, ← List.concat_eq_append]
      refine List.Nodup.concat ?_ hnd1
      intro hcon
      rcases List.mem_append.1 hcon with hcon | hcon
      · exact hnotin hcon
      · exact absurd (hbnd1 name hcon).2 (lt_irrefl _)
    · rw [← List.append_assoc]
      exact SoundOrder_append s (lo ++ t1) name hsubset hs1
    · intro x hx
      rcases List.mem_append.1 hx with hx | hx
      · obtain ⟨hxN, hxr⟩ := hbnd1 x hx
        exact ⟨hxN, Nat.le_of_lt hxr⟩
      · rcases List.mem_singleton.1 hx with rfl
        exact ⟨hname, le_refl _⟩

/-- The loop of `GetPluginLoadOrder` over registered names accumulates a
duplicate-free, sound order containing every visited name. -/
theorem loadOrder_complete (s : ManagerState) (rank : String → Nat)
    (hC : ClosedDeps s) (hR : RankCompat s rank) (fuel : Nat)
    (hf : ∀ n ∈ pluginNames s, rank n < fuel) :
    ∀ ns lo, (∀ n ∈ ns, n ∈ pluginNames s) → lo.Nodup → SoundOrder s lo →
      ∃ lo', loadOrderLoop fuel s ns lo = some lo' ∧ (∀ n ∈ ns, n ∈ lo') ∧
        (∀ x ∈ lo, x ∈ lo') ∧ lo'.Nodup ∧ SoundOrder s lo' := by
  intro ns
  induction ns with
  | nil =>
    intro lo _ hnd hs
    exact ⟨lo, rfl, by simp, fun x hx => hx, hnd, hs⟩
  | cons n ns ih =>
    intro lo hns hnd hs
    have hn := hns n (List.mem_cons_self n ns)
    have hns' : ∀ m ∈ ns, m ∈ pluginNames s := fun m hm => hns m (List.mem_cons_of_mem n hm)
    by_cases hmem : n ∈ lo
    · obtain ⟨lo', h1, h2, h3, h4, h5⟩ := ih lo hns' hnd hs
      refine ⟨lo', ?_, ?_, h3, h4, h5⟩
      · simp only [loadOrderLoop, if_pos hmem]
        exact h1
      · intro m hm
        rcases List.mem_cons.1 hm with rfl | hm
        · exact h3 m hmem
        · exact h2 m hm
    · obtain ⟨tail, hres, hmemn, hnd', hs', _⟩ :=
        resolve_complete s rank hC hR fuel n lo hn (hf n hn) hmem hnd hs
      obtain ⟨lo', h1, h2, h3, h4, h5⟩ := ih (lo ++ tail) hns' hnd' hs'
      refine ⟨lo', ?_, ?_, ?_, h4, h5⟩
      · simp only [loadOrderLoop, if_neg hmem, hres]
        exact h1
      · intro m hm
        rcases List.mem_cons.1 hm with rfl | hm
        · exact h3 m (List.mem_append_right lo hmemn)
        · exact h2 m hm
      · intro x hx
        exact h3 x (List.mem_append_left tail hx)

/-- Claim C2: on a registry whose dependency graph is acyclic (witnessed by a
rank function) and dependency-closed, GetPluginLoadOrder succeeds (given fuel
above every rank, i.e. the C++ recursion terminates), and returns a
duplicate-free order containing every registered extension in which each name
appears strictly after all of its declared dependencies; moreover sibling
dependencies are visited in Descriptor declaration order, exhibited on
`acState`, where P declares [B, A] and the result is [B, A, P] even though the
table order lists A before B. -/
theorem c2_acyclic_postorder (s : ManagerState) (rank : String → Nat) (fuel : Nat)
    (hC : ClosedDeps s) (hR : RankCompat s rank)
    (hf : ∀ n ∈ pluginNames s, rank n < fuel) :
    (∃ lo, getPluginLoadOrder fuel s = some lo ∧ lo.Nodup ∧
      (∀ n ∈ pluginNames s, n ∈ lo) ∧ SoundOrder s lo) ∧
    getPluginLoadOrder 5 acState = some ["B", "A", "P"] := by
  constructor
  · obtain ⟨lo', h1, h2, _, h4, h5⟩ :=
      loadOrder_complete s rank hC hR fuel hf (pluginNames s) []
        (fun n hn => hn) List.nodup_nil rfl
    exact ⟨lo', h1, h4, h2, h5⟩
  · rfl

/-- Rank function witnessing acyclicity of `acState`. -/
def rankAC : String → Nat := fun n => if n = "P" then 1 else 0

/-- Witness for C2 on the concrete acyclic registry `acState`. -/
theorem c2_acyclic_postorder_witness :
    (∃ lo, getPluginLoadOrder 2 acState = some lo ∧ lo.Nodup ∧
      (∀ n ∈ pluginNames acState, n ∈ lo) ∧ SoundOrder acState lo) ∧
    getPluginLoadOrder 5 acState = some ["B", "A", "P"] :=
  c2_acyclic_postorder acState rankAC 2 (by decide) (by decide) (by decide)

end PluginSys
